import Mathlib

/-!
Verification development for the mission-control plan subsystem.

The definitions below are a shallow embedding of the plan routes
(src/app/api/plans/route.ts, src/app/api/plans/[id]/approve/route.ts,
src/app/api/plans/[id]/reject/route.ts) and of the WebSocket server
(lib/websocket/server.ts).  The record store (SQLite tasks and
task_activities tables) is modelled as in-memory lists of rows; each
prepared-statement run() is modelled as one list transformation.  JSON
string serialization of the tags column is modelled by encodeTags and
parseTags on the quote-free tag strings the routes produce.
-/

namespace MissionControl

/-- tags field of a task object as it appears on the wire: either the raw
JSON text stored in the tags column of the record store, or the array
obtained by parsing that text.  Route handlers sometimes forward the raw
column text and sometimes the parsed array. -/
inductive TagsField
  | stored (s : String)
  | listed (l : List String)
deriving DecidableEq, Repr

/-- one row of the tasks table, restricted to the columns the plan routes
read or write (see migration 005 and the plan route INSERT statements). -/
structure Row where
  id : String
  title : String
  description : Option String := none
  status : String
  priority : String := "normal"
  parent_task_id : Option String := none
  workspace_id : String := "default"
  business_id : String := "default"
  source : String := "human"
  tags : String := "[]"
  approval_status : Option String := none
  approved_at : Option String := none
  approved_by : Option String := none
  color : Option String := none
  sort_order : Nat := 0
  agent_id : Option String := none
  openclaw_session_key : Option String := none
  created_at : String := ""
  updated_at : String := ""
deriving DecidableEq, Repr

/-- a task object as serialized to a transport (SSE payload, WebSocket
payload, HTTP response): the same fields as a row, except that the tags
field is either the raw column text or the parsed array. -/
structure TaskOut where
  id : String
  title : String
  description : Option String := none
  status : String
  priority : String := "normal"
  parent_task_id : Option String := none
  workspace_id : String := "default"
  business_id : String := "default"
  source : String := "human"
  tags : TagsField := .listed []
  approval_status : Option String := none
  approved_at : Option String := none
  approved_by : Option String := none
  color : Option String := none
  sort_order : Nat := 0
  agent_id : Option String := none
  openclaw_session_key : Option String := none
  created_at : String := ""
  updated_at : String := ""
deriving DecidableEq, Repr

/-- one row of the task_activities table. -/
structure Activity where
  id : String
  task_id : String
  agent_id : Option String := none
  activity_type : String
  message : String
  metadata : Option String := none
  created_at : String := ""
deriving DecidableEq, Repr

/-- the record store state touched by the plan routes. -/
structure DbState where
  tasks : List Row
  activities : List Activity
deriving DecidableEq, Repr

/-- a resolved plan as returned to the caller and broadcast over SSE:
the parent task object together with its child task objects. -/
structure PlanResult where
  parent : TaskOut
  subtasks : List TaskOut
deriving DecidableEq, Repr

/-- an envelope handed to broadcastEvent, the push-stream transport. -/
structure SSEEvent where
  etype : String
  payload : PlanResult
deriving DecidableEq, Repr

/-- payload of a plan_update WebSocket message (WSPlanUpdate in lib/types). -/
structure WSPlanUpdate where
  parent_task_id : String
  subtasks : List TaskOut
  status : String
deriving DecidableEq, Repr

/-- one call of MCWebSocketServer.broadcastToWorkspace: the workspace id
the broadcast is scoped to, the message type tag, and the payload. -/
structure WSBroadcast where
  scope : String
  mtype : String
  payload : WSPlanUpdate
deriving DecidableEq, Repr

/-- error taxonomy of the plan routes: validation errors are the 400
responses of input checks, notFound the 404 response, invalidState the
400 response for a plan that is not pending approval. -/
inductive ApiError
  | validation (msg : String)
  | notFound
  | invalidState
deriving DecidableEq, Repr

/-- outcome of a route call: a typed error or a resolved plan. -/
inductive Outcome
  | err (e : ApiError)
  | ok (p : PlanResult)
deriving DecidableEq, Repr

/-- result of running one route handler: the record store afterwards,
the SSE envelopes pushed, the WebSocket broadcasts issued, and the
outcome returned to the HTTP caller. -/
structure OpResult where
  state : DbState
  sse : List SSEEvent
  ws : List WSBroadcast
  outcome : Outcome
deriving DecidableEq, Repr

/-- JavaScript truthiness fallback on an optional string, modelling the
idiom v || dflt: absent and empty both fall back. -/
def jsOr (v : Option String) (d : String) : String :=
  match v with
  | none => d
  | some s => if s = "" then d else s

/-- JavaScript truthiness fallback to null, modelling v || null. -/
def jsOrNull (v : Option String) : Option String :=
  match v with
  | none => none
  | some s => if s = "" then none else some s

/-- JSON.stringify on a list of tag strings, for tags without quotes or
escapes, which is the shape the plan routes produce. -/
def encodeTags (l : List String) : String :=
  "[" ++ String.intercalate "," (l.map (fun t => "\"" ++ t ++ "\"")) ++ "]"

/-- JSON.parse on the tag encodings produced by encodeTags; models the
JSON.parse calls of the plan routes on the tags column. -/
def parseTags (s : String) : List String :=
  let inner := (s.drop 1).dropRight 1
  if inner = "" then [] else (inner.splitOn ",").map (fun t => (t.drop 1).dropRight 1)

/-- a row forwarded to a transport unchanged, tags still the raw column
text (the subtasks passed to broadcastPlanUpdate in the approve and
reject routes). -/
def Row.toWire (r : Row) : TaskOut :=
  { id := r.id, title := r.title, description := r.description, status := r.status,
    priority := r.priority, parent_task_id := r.parent_task_id,
    workspace_id := r.workspace_id, business_id := r.business_id, source := r.source,
    tags := .stored r.tags, approval_status := r.approval_status,
    approved_at := r.approved_at, approved_by := r.approved_by, color := r.color,
    sort_order := r.sort_order, agent_id := r.agent_id,
    openclaw_session_key := r.openclaw_session_key,
    created_at := r.created_at, updated_at := r.updated_at }

/-- a row with the tags column parsed, modelling the spread plus
JSON.parse idiom of the plan routes. -/
def Row.toParsed (r : Row) : TaskOut :=
  { id := r.id, title := r.title, description := r.description, status := r.status,
    priority := r.priority, parent_task_id := r.parent_task_id,
    workspace_id := r.workspace_id, business_id := r.business_id, source := r.source,
    tags := .listed (parseTags r.tags), approval_status := r.approval_status,
    approved_at := r.approved_at, approved_by := r.approved_by, color := r.color,
    sort_order := r.sort_order, agent_id := r.agent_id,
    openclaw_session_key := r.openclaw_session_key,
    created_at := r.created_at, updated_at := r.updated_at }

/-- SELECT * FROM tasks WHERE id = ? followed by get(): the first row
with the given id, if any. -/
def findTask (tasks : List Row) (id : String) : Option Row :=
  tasks.find? (fun r => r.id == id)

/-- SELECT * FROM tasks WHERE parent_task_id = ?. -/
def childRowsOf (tasks : List Row) (id : String) : List Row :=
  tasks.filter (fun r => r.parent_task_id == some id)

/-- stable insertion into a list sorted on sort_order. -/
def insertSorted (r : Row) : List Row → List Row
  | [] => [r]
  | x :: xs => if r.sort_order ≤ x.sort_order then r :: x :: xs else x :: insertSorted r xs

/-- ORDER BY sort_order: a stable sort on the sort_order column, used by
both the approve and reject reads and the GET subtask read. -/
def sortBySortOrder (l : List Row) : List Row := l.foldr insertSorted []

/-- a draft task from the request body of POST /api/plans. -/
structure TaskDraft where
  title : String
  description : Option String := none
  priority : Option String := none
  workspace_id : Option String := none
  business_id : Option String := none
  tags : Option (List String) := none
  color : Option String := none
deriving DecidableEq, Repr

/-- body of POST /api/plans (CreateTaskPlanRequest in lib/types). -/
structure CreateTaskPlanRequest where
  parent_task : TaskDraft
  subtasks : List TaskDraft
  agent_id : Option String := none
  session_key : Option String := none
deriving DecidableEq, Repr

/-- the parent row inserted by POST /api/plans. -/
def mkParentRow (d : TaskDraft) (parentId workspaceId : String)
    (agentId sessionKey : Option String) (now : String) : Row :=
  { id := parentId, title := d.title, description := jsOrNull d.description,
    status := "pending_approval", priority := jsOr d.priority "normal",
    parent_task_id := none, workspace_id := workspaceId,
    business_id := jsOr d.business_id "default", source := "agent",
    tags := encodeTags ("agentic" :: d.tags.getD []),
    approval_status := some "pending", color := some (jsOr d.color "#a855f7"),
    sort_order := 0, agent_id := agentId,
    openclaw_session_key := jsOrNull sessionKey,
    created_at := now, updated_at := now }

/-- one child row inserted at loop index i by POST /api/plans. -/
def mkChildRow (d : TaskDraft) (cid parentId workspaceId : String)
    (agentId : Option String) (now : String) (i : Nat) : Row :=
  { id := cid, title := d.title, description := jsOrNull d.description,
    status := "pending_approval", priority := jsOr d.priority "normal",
    parent_task_id := some parentId, workspace_id := workspaceId,
    business_id := jsOr d.business_id "default", source := "agent",
    tags := encodeTags ("agentic" :: d.tags.getD []),
    approval_status := some "pending", color := some (jsOr d.color "#a855f7"),
    sort_order := i, agent_id := agentId, openclaw_session_key := none,
    created_at := now, updated_at := now }

/-- the child rows inserted by the subtask loop of POST /api/plans,
pairing drafts with the fresh ids in order, starting at index i. -/
def mkChildRows (ds : List TaskDraft) (ids : List String)
    (parentId workspaceId : String) (agentId : Option String) (now : String)
    (i : Nat) : List Row :=
  match ds, ids with
  | d :: ds, cid :: cids =>
      mkChildRow d cid parentId workspaceId agentId now i ::
        mkChildRows ds cids parentId workspaceId agentId now (i + 1)
  | _, _ => []

/-- the subtask object pushed onto createdSubtasks at loop index i by
POST /api/plans (tags already an array, description not defaulted). -/
def mkChildOut (d : TaskDraft) (cid parentId workspaceId : String)
    (agentId : Option String) (now : String) (i : Nat) : TaskOut :=
  { id := cid, title := d.title, description := d.description,
    status := "pending_approval", priority := jsOr d.priority "normal",
    parent_task_id := some parentId, workspace_id := workspaceId,
    business_id := jsOr d.business_id "default", source := "agent",
    tags := .listed ("agentic" :: d.tags.getD []),
    approval_status := some "pending", color := some (jsOr d.color "#a855f7"),
    sort_order := i, agent_id := agentId, openclaw_session_key := none,
    created_at := now, updated_at := now }

/-- the createdSubtasks list of POST /api/plans. -/
def mkChildOuts (ds : List TaskDraft) (ids : List String)
    (parentId workspaceId : String) (agentId : Option String) (now : String)
    (i : Nat) : List TaskOut :=
  match ds, ids with
  | d :: ds, cid :: cids =>
      mkChildOut d cid parentId workspaceId agentId now i ::
        mkChildOuts ds cids parentId workspaceId agentId now (i + 1)
  | _, _ => []

/-- the createdParent object returned and broadcast by POST /api/plans. -/
def mkParentOut (d : TaskDraft) (parentId workspaceId : String)
    (agentId sessionKey : Option String) (now : String) : TaskOut :=
  { id := parentId, title := d.title, description := d.description,
    status := "pending_approval", priority := jsOr d.priority "normal",
    parent_task_id := none, workspace_id := workspaceId,
    business_id := jsOr d.business_id "default", source := "agent",
    tags := .listed ("agentic" :: d.tags.getD []),
    approval_status := some "pending", color := some (jsOr d.color "#a855f7"),
    sort_order := 0, agent_id := agentId, openclaw_session_key := sessionKey,
    created_at := now, updated_at := now }

/-- POST /api/plans: validates the body, inserts the parent row, the
child rows and one activity row, then pushes one plan_created envelope
through broadcastEvent.  The route issues no WebSocket broadcast.  The
fresh uuids are passed in as parentId, childIds and activityId. -/
def createPlan (s : DbState) (req : CreateTaskPlanRequest) (now parentId : String)
    (childIds : List String) (activityId : String) : OpResult :=
  if req.parent_task.title = "" then
    { state := s, sse := [], ws := [],
      outcome := .err (.validation "Parent task title is required") }
  else if req.subtasks = [] then
    { state := s, sse := [], ws := [],
      outcome := .err (.validation "At least one subtask is required") }
  else
    let workspaceId := jsOr req.parent_task.workspace_id "default"
    let parentRow := mkParentRow req.parent_task parentId workspaceId req.agent_id req.session_key now
    let childRows := mkChildRows req.subtasks childIds parentId workspaceId req.agent_id now 0
    let childOuts := mkChildOuts req.subtasks childIds parentId workspaceId req.agent_id now 0
    let parentOut := mkParentOut req.parent_task parentId workspaceId req.agent_id req.session_key now
    let activity : Activity :=
      { id := activityId, task_id := parentId, agent_id := req.agent_id,
        activity_type := "spawned",
        message := "Agent created task plan with " ++ toString req.subtasks.length ++ " subtasks",
        created_at := now }
    let result : PlanResult := { parent := parentOut, subtasks := childOuts }
    { state := { tasks := s.tasks ++ parentRow :: childRows,
                 activities := s.activities ++ [activity] },
      sse := [{ etype := "plan_created", payload := result }],
      ws := [],
      outcome := .ok result }

/-- the UPDATE tasks ... WHERE id = ? statement of the approve and
reject routes, applied to one row. -/
def resolveUpdById (id appr stat approver now : String) (r : Row) : Row :=
  if r.id = id then
    { r with approval_status := some appr, approved_at := some now,
             approved_by := some approver, status := stat, updated_at := now }
  else r

/-- the UPDATE tasks ... WHERE parent_task_id = ? statement of the
approve and reject routes, applied to one row. -/
def resolveUpdByParent (id appr stat approver now : String) (r : Row) : Row :=
  if r.parent_task_id = some id then
    { r with approval_status := some appr, approved_at := some now,
             approved_by := some approver, status := stat, updated_at := now }
  else r

/-- a placeholder row for the get() call the routes perform after a
successful update; the lookup always succeeds on those paths. -/
def emptyRow : Row := { id := "", title := "", status := "" }

/-- POST /api/plans/[id]/approve: looks the parent up, rejects a missing
or non-pending plan, otherwise runs the parent UPDATE, the children
UPDATE and the activity INSERT, re-reads parent and children, pushes a
plan_approved SSE envelope, and issues one plan_update WebSocket
broadcast through broadcastPlanUpdate, which scopes it to its default
workspace argument. -/
def approvePlan (s : DbState) (id : String) (approvedBy : Option String)
    (now activityId : String) : OpResult :=
  match findTask s.tasks id with
  | none => { state := s, sse := [], ws := [], outcome := .err .notFound }
  | some p =>
    if p.approval_status ≠ some "pending" then
      { state := s, sse := [], ws := [], outcome := .err .invalidState }
    else
      let approver := jsOr approvedBy "human"
      let tasks1 := s.tasks.map (resolveUpdById id "approved" "inbox" approver now)
      let tasks2 := tasks1.map (resolveUpdByParent id "approved" "inbox" approver now)
      let activity : Activity :=
        { id := activityId, task_id := id, activity_type := "status_changed",
          message := "Plan approved by " ++ approver, created_at := now }
      let updatedParent := (findTask tasks2 id).getD emptyRow
      let subs := sortBySortOrder (childRowsOf tasks2 id)
      let result : PlanResult :=
        { parent := updatedParent.toParsed, subtasks := subs.map Row.toParsed }
      { state := { tasks := tasks2, activities := s.activities ++ [activity] },
        sse := [{ etype := "plan_approved", payload := result }],
        ws := [{ scope := "default", mtype := "plan_update",
                 payload := { parent_task_id := id, subtasks := subs.map Row.toWire,
                              status := "approved" } }],
        outcome := .ok result }

/-- JSON.stringify of the reject reason metadata object. -/
def reasonMeta (r : String) : String := "\x7b\"reason\":\"" ++ r ++ "\"\x7d"

/-- POST /api/plans/[id]/reject: same shape as approve with approval
status rejected, coarse status blocked, the optional reason recorded in
the activity row, and a plan_update broadcast with status rejected. -/
def rejectPlan (s : DbState) (id : String) (rejectedBy reason : Option String)
    (now activityId : String) : OpResult :=
  match findTask s.tasks id with
  | none => { state := s, sse := [], ws := [], outcome := .err .notFound }
  | some p =>
    if p.approval_status ≠ some "pending" then
      { state := s, sse := [], ws := [], outcome := .err .invalidState }
    else
      let rejecter := jsOr rejectedBy "human"
      let reasonVal := jsOrNull reason
      let tasks1 := s.tasks.map (resolveUpdById id "rejected" "blocked" rejecter now)
      let tasks2 := tasks1.map (resolveUpdByParent id "rejected" "blocked" rejecter now)
      let activity : Activity :=
        { id := activityId, task_id := id, activity_type := "status_changed",
          message := "Plan rejected by " ++ rejecter ++
            (match reasonVal with | some r => ": " ++ r | none => ""),
          metadata := reasonVal.map reasonMeta, created_at := now }
      let updatedParent := (findTask tasks2 id).getD emptyRow
      let subs := sortBySortOrder (childRowsOf tasks2 id)
      let result : PlanResult :=
        { parent := updatedParent.toParsed, subtasks := subs.map Row.toParsed }
      { state := { tasks := tasks2, activities := s.activities ++ [activity] },
        sse := [{ etype := "plan_rejected", payload := result }],
        ws := [{ scope := "default", mtype := "plan_update",
                 payload := { parent_task_id := id, subtasks := subs.map Row.toWire,
                              status := "rejected" } }],
        outcome := .ok result }

/-- the per-parent subtask read of GET /api/plans: children of the given
parent id ordered by sort_order, tags parsed. -/
def readPlanChildren (s : DbState) (parentId : String) : List TaskOut :=
  (sortBySortOrder (childRowsOf s.tasks parentId)).map Row.toParsed

/-- the durable record-store states approve can leave behind if the
process stops after each statement: better-sqlite3 runs every run() in
its own autocommit transaction and the route wraps nothing in
db.transaction, so the states after the parent UPDATE, after the
children UPDATE and after the activity INSERT are each separately
committed. -/
def approveCommitPoints (s : DbState) (id : String) (approvedBy : Option String)
    (now activityId : String) : List DbState :=
  match findTask s.tasks id with
  | none => [s]
  | some p =>
    if p.approval_status ≠ some "pending" then [s]
    else
      let approver := jsOr approvedBy "human"
      let tasks1 := s.tasks.map (resolveUpdById id "approved" "inbox" approver now)
      let tasks2 := tasks1.map (resolveUpdByParent id "approved" "inbox" approver now)
      let activity : Activity :=
        { id := activityId, task_id := id, activity_type := "status_changed",
          message := "Plan approved by " ++ approver, created_at := now }
      [s, { tasks := tasks1, activities := s.activities },
          { tasks := tasks2, activities := s.activities },
          { tasks := tasks2, activities := s.activities ++ [activity] }]

/-- connection state kept per client by MCWebSocketServer: the filter
sets are JavaScript Sets, modelled as duplicate-free lists in insertion
order. -/
structure WSClient where
  id : String
  subscribedWorkspaces : List String
  subscribedTasks : List String
deriving DecidableEq, Repr

/-- Set.add on the list model: append unless already present. -/
def setAdd (x : String) (l : List String) : List String :=
  if x ∈ l then l else l ++ [x]

/-- Set.delete on the list model. -/
def setDel (x : String) (l : List String) : List String := l.erase x

/-- client state on connection: every connection auto-subscribes to the
default workspace and to no tasks. -/
def initialClient (cid : String) : WSClient :=
  { id := cid, subscribedWorkspaces := ["default"], subscribedTasks := [] }

/-- an inbound subscribe or unsubscribe message; an absent workspaces or
tasks field is the empty list. -/
inductive ClientMsg
  | subscribe (workspaces : List String) (tasks : List String)
  | unsubscribe (workspaces : List String) (tasks : List String)

/-- handleSubscribe and handleUnsubscribe of MCWebSocketServer: union
the given ids into, or delete them from, the filter sets of the client. -/
def handleMsg (c : WSClient) : ClientMsg → WSClient
  | .subscribe ws ts =>
      { c with subscribedWorkspaces := ws.foldl (fun l w => setAdd w l) c.subscribedWorkspaces,
               subscribedTasks := ts.foldl (fun l t => setAdd t l) c.subscribedTasks }
  | .unsubscribe ws ts =>
      { c with subscribedWorkspaces := ws.foldl (fun l w => setDel w l) c.subscribedWorkspaces,
               subscribedTasks := ts.foldl (fun l t => setDel t l) c.subscribedTasks }

/-- the filter state of a connection after a sequence of inbound
messages, starting from the auto-subscription of a fresh connection. -/
def applyMsgs (cid : String) (msgs : List ClientMsg) : WSClient :=
  msgs.foldl handleMsg (initialClient cid)

/-- the per-client selection condition of broadcastToWorkspace: the
workspace filter set holds the target workspace id or the wildcard. -/
def wsMatches (c : WSClient) (workspaceId : String) : Bool :=
  c.subscribedWorkspaces.contains workspaceId || c.subscribedWorkspaces.contains "*"

/-- broadcastToWorkspace as a delivery set: the registered clients the
message is sent to. -/
def wsRecipients (clients : List WSClient) (workspaceId : String) : List WSClient :=
  clients.filter (fun c => wsMatches c workspaceId)

/-- mathematical set semantics of one subscribe or unsubscribe message
on the workspace filter: union on subscribe, difference on
unsubscribe. -/
def specStep (S : Set String) : ClientMsg → Set String
  | .subscribe ws _ => S ∪ { w | w ∈ ws }
  | .unsubscribe ws _ => S \ { w | w ∈ ws }

/-- mathematical set semantics of the workspace filter of one
connection over a message sequence: start from the default workspace,
union on subscribe, subtract on unsubscribe. -/
def specWsSet (msgs : List ClientMsg) : Set String :=
  msgs.foldl specStep {"default"}

/-- freshness of the uuid oracle: none of the generated ids is the id
of an existing row (uuid collisions would make the INSERT throw on the
primary key in the real store). -/
def freshIds (s : DbState) (ids : List String) : Prop :=
  ∀ i ∈ ids, ∀ r ∈ s.tasks, r.id ≠ i

/-- one plan-route call with arbitrary arguments, as the claim states
it: createPlan with fresh distinct uuids, approve and reject with an
arbitrary task id. -/
inductive UStep : DbState → DbState → Prop
  | create {s : DbState} (req : CreateTaskPlanRequest) (now parentId activityId : String)
      (childIds : List String)
      (hlen : childIds.length = req.subtasks.length)
      (hfresh : freshIds s (parentId :: childIds))
      (hnodup : (parentId :: childIds).Nodup) :
      UStep s (createPlan s req now parentId childIds activityId).state
  | approve {s : DbState} (id : String) (approvedBy : Option String) (now activityId : String) :
      UStep s (approvePlan s id approvedBy now activityId).state
  | reject {s : DbState} (id : String) (rejectedBy reason : Option String) (now activityId : String) :
      UStep s (rejectPlan s id rejectedBy reason now activityId).state

/-- record-store states reachable from the empty store by plan-route
calls with arbitrary task ids. -/
inductive Reach : DbState → Prop
  | init : Reach { tasks := [], activities := [] }
  | step {s t : DbState} : Reach s → UStep s t → Reach t

/-- the target id names only top-level rows of the current state (rows
without a parent reference). -/
def topLevelTarget (s : DbState) (id : String) : Prop :=
  ∀ r ∈ s.tasks, r.id = id → r.parent_task_id = none

/-- one plan-route call where approve and reject are only issued
against top-level task ids. -/
inductive GStep : DbState → DbState → Prop
  | create {s : DbState} (req : CreateTaskPlanRequest) (now parentId activityId : String)
      (childIds : List String)
      (hlen : childIds.length = req.subtasks.length)
      (hfresh : freshIds s (parentId :: childIds))
      (hnodup : (parentId :: childIds).Nodup) :
      GStep s (createPlan s req now parentId childIds activityId).state
  | approve {s : DbState} (id : String) (approvedBy : Option String) (now activityId : String)
      (htop : topLevelTarget s id) :
      GStep s (approvePlan s id approvedBy now activityId).state
  | reject {s : DbState} (id : String) (rejectedBy reason : Option String) (now activityId : String)
      (htop : topLevelTarget s id) :
      GStep s (rejectPlan s id rejectedBy reason now activityId).state

/-- record-store states reachable from the empty store when approve and
reject are only called on top-level task ids. -/
inductive GReach : DbState → Prop
  | init : GReach { tasks := [], activities := [] }
  | step {s t : DbState} : GReach s → GStep s t → GReach t

/-- the invariant of the claim: every child row carries the same
approval status and the same coarse status as its parent row. -/
def childParentConsistent (s : DbState) : Prop :=
  ∀ c ∈ s.tasks, ∀ p ∈ s.tasks, c.parent_task_id = some p.id →
    c.approval_status = p.approval_status ∧ c.status = p.status

/-- the task tree is two-level: a row that is referenced as a parent
has itself no parent reference. -/
def twoLevel (s : DbState) : Prop :=
  ∀ c ∈ s.tasks, ∀ p ∈ s.tasks, c.parent_task_id = some p.id →
    p.parent_task_id = none

/-- every parent reference points at the id of some row of the store. -/
def refsClosed (s : DbState) : Prop :=
  ∀ c ∈ s.tasks, ∀ pid : String, c.parent_task_id = some pid →
    ∃ p ∈ s.tasks, p.id = pid

/-- the inductive invariant combining consistency with the structural
facts that make it preserved. -/
def goodState (s : DbState) : Prop :=
  childParentConsistent s ∧ twoLevel s ∧ refsClosed s

lemma resolveUpdById_id (id a st ap n : String) (r : Row) :
    (resolveUpdById id a st ap n r).id = r.id := by
  unfold resolveUpdById; split <;> rfl

lemma resolveUpdById_parent (id a st ap n : String) (r : Row) :
    (resolveUpdById id a st ap n r).parent_task_id = r.parent_task_id := by
  unfold resolveUpdById; split <;> rfl

lemma resolveUpdByParent_id (id a st ap n : String) (r : Row) :
    (resolveUpdByParent id a st ap n r).id = r.id := by
  unfold resolveUpdByParent; split <;> rfl

lemma resolveUpdByParent_parent (id a st ap n : String) (r : Row) :
    (resolveUpdByParent id a st ap n r).parent_task_id = r.parent_task_id := by
  unfold resolveUpdByParent; split <;> rfl

lemma findTask_map (l : List Row) (id : String) (f : Row → Row)
    (hf : ∀ r, (f r).id = r.id) :
    findTask (l.map f) id = (findTask l id).map f := by
  unfold findTask
  rw [List.find?_map]
  have hco : ((fun r : Row => r.id == id) ∘ f) = (fun r : Row => r.id == id) := by
    funext r
    simp [Function.comp, hf]
  rw [hco]

lemma findTask_id {l : List Row} {id : String} {p : Row}
    (h : findTask l id = some p) : p.id = id := by
  have := List.find?_some h
  simpa using this

lemma findTask_mem {l : List Row} {id : String} {p : Row}
    (h : findTask l id = some p) : p ∈ l :=
  List.mem_of_find?_eq_some h

/-- C7.  createPlan called with zero subtasks fails with a validation
error, writes no task row and no activity row, and sends no broadcast
on either transport. -/
theorem createPlan_empty_subtasks_validation
    (s : DbState) (req : CreateTaskPlanRequest) (now parentId activityId : String)
    (childIds : List String) (h : req.subtasks = []) :
    (createPlan s req now parentId childIds activityId).state = s ∧
    (createPlan s req now parentId childIds activityId).sse = [] ∧
    (createPlan s req now parentId childIds activityId).ws = [] ∧
    ∃ m, (createPlan s req now parentId childIds activityId).outcome =
      .err (.validation m) := by
  unfold createPlan
  by_cases ht : req.parent_task.title = "" <;> simp [ht, h]

/-- witness for C7. -/
theorem createPlan_empty_subtasks_validation_witness :
    (createPlan { tasks := [], activities := [] }
        { parent_task := { title := "Ship v2" }, subtasks := [] }
        "t0" "p1" [] "a1").state = { tasks := [], activities := [] } ∧
    (createPlan { tasks := [], activities := [] }
        { parent_task := { title := "Ship v2" }, subtasks := [] }
        "t0" "p1" [] "a1").sse = [] ∧
    (createPlan { tasks := [], activities := [] }
        { parent_task := { title := "Ship v2" }, subtasks := [] }
        "t0" "p1" [] "a1").ws = [] ∧
    ∃ m, (createPlan { tasks := [], activities := [] }
        { parent_task := { title := "Ship v2" }, subtasks := [] }
        "t0" "p1" [] "a1").outcome = .err (.validation m) :=
  createPlan_empty_subtasks_validation { tasks := [], activities := [] }
    { parent_task := { title := "Ship v2" }, subtasks := [] } "t0" "p1" "a1" [] rfl

/-- the composite of the two UPDATE statements of approve or reject on
the tasks table. -/
def resolvedTasks (tasks : List Row) (id appr stat approver now : String) : List Row :=
  (tasks.map (resolveUpdById id appr stat approver now)).map
    (resolveUpdByParent id appr stat approver now)

/-- the child rows the routes re-read after the updates. -/
def resolvedSubs (tasks : List Row) (id appr stat approver now : String) : List Row :=
  sortBySortOrder (childRowsOf (resolvedTasks tasks id appr stat approver now) id)

/-- the resolved plan object the routes build after the updates. -/
def resolvedPlanView (tasks : List Row) (id appr stat approver now : String) : PlanResult :=
  { parent := ((findTask (resolvedTasks tasks id appr stat approver now) id).getD emptyRow).toParsed,
    subtasks := (resolvedSubs tasks id appr stat approver now).map Row.toParsed }

lemma approvePlan_notFound {s : DbState} {id : String} (aby : Option String)
    (now aid : String) (h : findTask s.tasks id = none) :
    approvePlan s id aby now aid =
      { state := s, sse := [], ws := [], outcome := .err .notFound } := by
  unfold approvePlan
  rw [h]

lemma approvePlan_invalid {s : DbState} {id : String} {p : Row} (aby : Option String)
    (now aid : String) (hf : findTask s.tasks id = some p)
    (hnp : p.approval_status ≠ some "pending") :
    approvePlan s id aby now aid =
      { state := s, sse := [], ws := [], outcome := .err .invalidState } := by
  unfold approvePlan
  rw [hf]
  dsimp only
  rw [if_pos hnp]

lemma approvePlan_pending_eq {s : DbState} {id : String} {p : Row} (aby : Option String)
    (now aid : String) (hf : findTask s.tasks id = some p)
    (hp : p.approval_status = some "pending") :
    approvePlan s id aby now aid =
      { state := { tasks := resolvedTasks s.tasks id "approved" "inbox" (jsOr aby "human") now,
                   activities := s.activities ++
                     [{ id := aid, task_id := id, activity_type := "status_changed",
                        message := "Plan approved by " ++ jsOr aby "human",
                        created_at := now }] },
        sse := [{ etype := "plan_approved",
                  payload := resolvedPlanView s.tasks id "approved" "inbox" (jsOr aby "human") now }],
        ws := [{ scope := "default", mtype := "plan_update",
                 payload := { parent_task_id := id,
                              subtasks := (resolvedSubs s.tasks id "approved" "inbox" (jsOr aby "human") now).map Row.toWire,
                              status := "approved" } }],
        outcome := .ok (resolvedPlanView s.tasks id "approved" "inbox" (jsOr aby "human") now) } := by
  unfold approvePlan resolvedPlanView resolvedSubs resolvedTasks
  rw [hf]
  dsimp only
  rw [if_neg (by simp [hp])]

lemma rejectPlan_notFound {s : DbState} {id : String} (rby reason : Option String)
    (now aid : String) (h : findTask s.tasks id = none) :
    rejectPlan s id rby reason now aid =
      { state := s, sse := [], ws := [], outcome := .err .notFound } := by
  unfold rejectPlan
  rw [h]

lemma rejectPlan_invalid {s : DbState} {id : String} {p : Row} (rby reason : Option String)
    (now aid : String) (hf : findTask s.tasks id = some p)
    (hnp : p.approval_status ≠ some "pending") :
    rejectPlan s id rby reason now aid =
      { state := s, sse := [], ws := [], outcome := .err .invalidState } := by
  unfold rejectPlan
  rw [hf]
  dsimp only
  rw [if_pos hnp]

lemma rejectPlan_pending_eq {s : DbState} {id : String} {p : Row} (rby reason : Option String)
    (now aid : String) (hf : findTask s.tasks id = some p)
    (hp : p.approval_status = some "pending") :
    rejectPlan s id rby reason now aid =
      { state := { tasks := resolvedTasks s.tasks id "rejected" "blocked" (jsOr rby "human") now,
                   activities := s.activities ++
                     [{ id := aid, task_id := id, activity_type := "status_changed",
                        message := "Plan rejected by " ++ jsOr rby "human" ++
                          (match jsOrNull reason with | some r => ": " ++ r | none => ""),
                        metadata := (jsOrNull reason).map reasonMeta,
                        created_at := now }] },
        sse := [{ etype := "plan_rejected",
                  payload := resolvedPlanView s.tasks id "rejected" "blocked" (jsOr rby "human") now }],
        ws := [{ scope := "default", mtype := "plan_update",
                 payload := { parent_task_id := id,
                              subtasks := (resolvedSubs s.tasks id "rejected" "blocked" (jsOr rby "human") now).map Row.toWire,
                              status := "rejected" } }],
        outcome := .ok (resolvedPlanView s.tasks id "rejected" "blocked" (jsOr rby "human") now) } := by
  unfold rejectPlan resolvedPlanView resolvedSubs resolvedTasks
  rw [hf]
  dsimp only
  rw [if_neg (by simp [hp])]

lemma resolveUpdById_hit (id a st ap n : String) {r : Row} (h : r.id = id) :
    resolveUpdById id a st ap n r =
      { r with approval_status := some a, approved_at := some n,
               approved_by := some ap, status := st, updated_at := n } := by
  unfold resolveUpdById
  rw [if_pos h]

lemma resolveUpdById_miss (id a st ap n : String) {r : Row} (h : r.id ≠ id) :
    resolveUpdById id a st ap n r = r := by
  unfold resolveUpdById
  rw [if_neg h]

lemma resolveUpdByParent_hit (id a st ap n : String) {r : Row}
    (h : r.parent_task_id = some id) :
    resolveUpdByParent id a st ap n r =
      { r with approval_status := some a, approved_at := some n,
               approved_by := some ap, status := st, updated_at := n } := by
  unfold resolveUpdByParent
  rw [if_pos h]

lemma resolveUpdByParent_miss (id a st ap n : String) {r : Row}
    (h : r.parent_task_id ≠ some id) :
    resolveUpdByParent id a st ap n r = r := by
  unfold resolveUpdByParent
  rw [if_neg h]

/-- any row matched by either UPDATE of approve or reject ends with the
written approval status, coarse status and approver stamp. -/
lemma resolved_row_hit (id a st ap n : String) {r : Row}
    (h : r.id = id ∨ r.parent_task_id = some id) :
    (resolveUpdByParent id a st ap n (resolveUpdById id a st ap n r)).approval_status = some a ∧
    (resolveUpdByParent id a st ap n (resolveUpdById id a st ap n r)).status = st ∧
    (resolveUpdByParent id a st ap n (resolveUpdById id a st ap n r)).approved_by = some ap ∧
    (resolveUpdByParent id a st ap n (resolveUpdById id a st ap n r)).approved_at = some n := by
  unfold resolveUpdById resolveUpdByParent
  rcases h with h | h <;> split_ifs <;> simp_all

/-- a row matched by neither UPDATE is unchanged. -/
lemma resolved_row_miss (id a st ap n : String) {r : Row}
    (hid : r.id ≠ id) (hpar : r.parent_task_id ≠ some id) :
    resolveUpdByParent id a st ap n (resolveUpdById id a st ap n r) = r := by
  rw [resolveUpdById_miss id a st ap n hid, resolveUpdByParent_miss id a st ap n hpar]

/-- C3.  approve fails with notFound when no task has the given id and
with invalidState when the parent is not pending; both failures leave
the record store untouched and broadcast nothing; and a second approve
of an already approved plan returns invalidState and changes nothing. -/
theorem approve_error_paths_one_shot :
    (∀ (s : DbState) (id : String) (aby : Option String) (now aid : String),
        findTask s.tasks id = none →
        approvePlan s id aby now aid =
          { state := s, sse := [], ws := [], outcome := .err .notFound }) ∧
    (∀ (s : DbState) (id : String) (aby : Option String) (now aid : String) (p : Row),
        findTask s.tasks id = some p → p.approval_status ≠ some "pending" →
        approvePlan s id aby now aid =
          { state := s, sse := [], ws := [], outcome := .err .invalidState }) ∧
    (∀ (s : DbState) (id : String) (aby aby2 : Option String)
        (now aid now2 aid2 : String) (p : Row),
        findTask s.tasks id = some p → p.approval_status = some "pending" →
        approvePlan (approvePlan s id aby now aid).state id aby2 now2 aid2 =
          { state := (approvePlan s id aby now aid).state, sse := [], ws := [],
            outcome := .err .invalidState }) := by
  refine ⟨?_, ?_, ?_⟩
  · intro s id aby now aid h
    exact approvePlan_notFound aby now aid h
  · intro s id aby now aid p hf hnp
    exact approvePlan_invalid aby now aid hf hnp
  · intro s id aby aby2 now aid now2 aid2 p hf hp
    have hpid : p.id = id := findTask_id hf
    have hstate : (approvePlan s id aby now aid).state =
        { tasks := resolvedTasks s.tasks id "approved" "inbox" (jsOr aby "human") now,
          activities := s.activities ++
            [{ id := aid, task_id := id, activity_type := "status_changed",
               message := "Plan approved by " ++ jsOr aby "human",
               created_at := now }] } := by
      rw [approvePlan_pending_eq aby now aid hf hp]
    set q := resolveUpdByParent id "approved" "inbox" (jsOr aby "human") now
        (resolveUpdById id "approved" "inbox" (jsOr aby "human") now p) with hq
    have hfind2 : findTask (approvePlan s id aby now aid).state.tasks id = some q := by
      rw [hstate]
      unfold resolvedTasks
      rw [findTask_map _ _ _ (fun r => resolveUpdByParent_id id _ _ _ _ r),
          findTask_map _ _ _ (fun r => resolveUpdById_id id _ _ _ _ r), hf]
      rfl
    have happr : q.approval_status = some "approved" :=
      (resolved_row_hit id "approved" "inbox" (jsOr aby "human") now (Or.inl hpid)).1
    exact approvePlan_invalid aby2 now2 aid2 hfind2 (by simp [happr])

/-- witness for C3: a concrete store with one pending plan, approved
twice; plus a concrete notFound call. -/
theorem approve_error_paths_one_shot_witness :
    approvePlan (approvePlan
        { tasks := [{ id := "p1", title := "Ship v2", status := "pending_approval",
                      approval_status := some "pending" }], activities := [] }
        "p1" none "t1" "a1").state "p1" none "t2" "a2" =
      { state := (approvePlan
          { tasks := [{ id := "p1", title := "Ship v2", status := "pending_approval",
                        approval_status := some "pending" }], activities := [] }
          "p1" none "t1" "a1").state,
        sse := [], ws := [], outcome := .err .invalidState } ∧
    approvePlan { tasks := [], activities := [] } "nope" none "t1" "a1" =
      { state := { tasks := [], activities := [] }, sse := [], ws := [],
        outcome := .err .notFound } :=
  ⟨approve_error_paths_one_shot.2.2
      { tasks := [{ id := "p1", title := "Ship v2", status := "pending_approval",
                    approval_status := some "pending" }], activities := [] }
      "p1" none none "t1" "a1" "t2" "a2"
      { id := "p1", title := "Ship v2", status := "pending_approval",
        approval_status := some "pending" } (by decide) rfl,
    approve_error_paths_one_shot.1 { tasks := [], activities := [] }
      "nope" none "t1" "a1" rfl⟩

/-- concrete scenario shared by several checks: one plan with two
children, created in workspace w1 by agent dev. -/
def cexReq : CreateTaskPlanRequest :=
  { parent_task := { title := "Ship v2", workspace_id := some "w1" },
    subtasks := [{ title := "Write tests" }, { title := "Update docs" }],
    agent_id := some "dev" }

/-- the concrete plan creation on an empty store. -/
def cexCreate : OpResult :=
  createPlan { tasks := [], activities := [] } cexReq "2026-01-01" "p1" ["c1", "c2"] "a1"

/-- approval of the concrete plan. -/
def cexApprove : OpResult := approvePlan cexCreate.state "p1" none "2026-01-02" "a2"

/-- rejection of the concrete plan. -/
def cexReject : OpResult :=
  rejectPlan cexCreate.state "p1" none (some "scope too broad") "2026-01-02" "a2"

/-- approval issued against the id of a child of the concrete plan. -/
def cexApproveChild : OpResult := approvePlan cexCreate.state "c1" none "2026-01-02" "a2"

/-- the parent row of the concrete plan as stored. -/
def cexParentRow : Row := mkParentRow cexReq.parent_task "p1" "w1" (some "dev") none "2026-01-01"

/-- C10.  a successful reject stamps the rejecter id (defaulting to
human) into approved_by and the rejection time into approved_at on the
parent row and on every child row, alongside approval status rejected
and coarse status blocked. -/
theorem reject_stamps_approver_columns_on_children
    (s : DbState) (id : String) (rby reason : Option String) (now aid : String) (p : Row)
    (hf : findTask s.tasks id = some p) (hp : p.approval_status = some "pending") :
    ∀ r ∈ (rejectPlan s id rby reason now aid).state.tasks,
      r.id = id ∨ r.parent_task_id = some id →
      r.approved_by = some (jsOr rby "human") ∧ r.approved_at = some now ∧
        r.approval_status = some "rejected" ∧ r.status = "blocked" := by
  rw [rejectPlan_pending_eq rby reason now aid hf hp]
  dsimp only
  intro r hr hcase
  unfold resolvedTasks at hr
  rcases List.mem_map.mp hr with ⟨r1, hr1, rfl⟩
  rcases List.mem_map.mp hr1 with ⟨r0, hr0, rfl⟩
  have hid : (resolveUpdByParent id "rejected" "blocked" (jsOr rby "human") now
      (resolveUpdById id "rejected" "blocked" (jsOr rby "human") now r0)).id = r0.id := by
    rw [resolveUpdByParent_id, resolveUpdById_id]
  have hpar : (resolveUpdByParent id "rejected" "blocked" (jsOr rby "human") now
      (resolveUpdById id "rejected" "blocked" (jsOr rby "human") now r0)).parent_task_id =
      r0.parent_task_id := by
    rw [resolveUpdByParent_parent, resolveUpdById_parent]
  rw [hid, hpar] at hcase
  have h := resolved_row_hit id "rejected" "blocked" (jsOr rby "human") now hcase
  exact ⟨h.2.2.1, h.2.2.2, h.1, h.2.1⟩

/-- witness for C10 on the concrete rejected plan: every addressed row
of the concrete store carries the rejecter stamp. -/
theorem reject_stamps_approver_columns_on_children_witness :
    (cexReject.state.tasks.filter
        (fun r => r.id == "p1" || r.parent_task_id == some "p1")).all
      (fun r => r.approved_by == some "human" && r.approved_at == some "2026-01-02" &&
        r.approval_status == some "rejected" && r.status == "blocked") = true := by
  have h := reject_stamps_approver_columns_on_children cexCreate.state "p1" none
    (some "scope too broad") "2026-01-02" "a2" cexParentRow (by decide) (by decide)
  rw [List.all_eq_true]
  intro r hr
  have hm := List.mem_filter.mp hr
  have hca : r.id = "p1" ∨ r.parent_task_id = some "p1" := by
    rcases Bool.or_eq_true_iff.mp hm.2 with hb | hb
    · exact Or.inl (by simpa using hb)
    · exact Or.inr (by simpa using hb)
  have hres := h r hm.1 hca
  simp [hres.1, hres.2.1, hres.2.2.1, hres.2.2.2, jsOr]

/-- counterexample to C4.  the concrete plan lives in workspace w1, yet
createPlan issues no WebSocket broadcast at all, and the plan-update
broadcast of approve is scoped to the constant default workspace, not
to w1. -/
theorem plan_broadcast_workspace_scope_cex :
    (∀ r ∈ cexCreate.state.tasks, r.workspace_id = "w1") ∧
    cexCreate.ws = [] ∧
    (∀ b ∈ cexApprove.ws, b.scope ≠ "w1") := by decide

/-- C4 amended.  createPlan publishes exactly one plan_created envelope
and only on the push stream (no socket broadcast), and approve issues
exactly one plan-update socket broadcast, scoped to the constant
workspace default regardless of the plan workspace. -/
theorem plan_broadcast_transports_and_scope :
    (∀ (s : DbState) (req : CreateTaskPlanRequest) (now parentId activityId : String)
        (childIds : List String),
        req.parent_task.title ≠ "" → req.subtasks ≠ [] →
        (createPlan s req now parentId childIds activityId).ws = [] ∧
        ∃ pl, (createPlan s req now parentId childIds activityId).sse =
          [{ etype := "plan_created", payload := pl }]) ∧
    (∀ (s : DbState) (id : String) (aby : Option String) (now aid : String) (p : Row),
        findTask s.tasks id = some p → p.approval_status = some "pending" →
        ∃ subs, (approvePlan s id aby now aid).ws =
          [{ scope := "default", mtype := "plan_update",
             payload := { parent_task_id := id, subtasks := subs,
                          status := "approved" } }]) := by
  constructor
  · intro s req now pid aid cids ht hs
    unfold createPlan
    rw [if_neg ht, if_neg hs]
    dsimp only
    exact ⟨rfl, _, rfl⟩
  · intro s id aby now aid p hf hp
    rw [approvePlan_pending_eq aby now aid hf hp]
    exact ⟨_, rfl⟩

/-- witness for the amended C4 on the concrete plan. -/
theorem plan_broadcast_transports_and_scope_witness :
    cexCreate.ws = [] ∧
    (∃ pl, cexCreate.sse = [{ etype := "plan_created", payload := pl }]) ∧
    ∃ subs, cexApprove.ws =
      [{ scope := "default", mtype := "plan_update",
         payload := { parent_task_id := "p1", subtasks := subs,
                      status := "approved" } }] :=
  ⟨(plan_broadcast_transports_and_scope.1 { tasks := [], activities := [] } cexReq
      "2026-01-01" "p1" "a1" ["c1", "c2"] (by decide) (by decide)).1,
   (plan_broadcast_transports_and_scope.1 { tasks := [], activities := [] } cexReq
      "2026-01-01" "p1" "a1" ["c1", "c2"] (by decide) (by decide)).2,
   plan_broadcast_transports_and_scope.2 cexCreate.state "p1" none "2026-01-02" "a2"
     cexParentRow (by decide) (by decide)⟩

/-- counterexample to C9.  on the concrete approved plan, the subtasks
carried by the plan_update envelope do not equal, field for field, the
plain read of the same parent id performed on the post-approve store:
the envelope carries the raw tags column text while the read returns
the parsed array. -/
theorem plan_update_read_roundtrip_cex :
    ¬ ∀ b ∈ cexApprove.ws, b.payload.subtasks =
        readPlanChildren cexApprove.state b.payload.parent_task_id := by decide

/-- the tags normalization separating the two representations: parse a
raw tags string, leave an already parsed array unchanged. -/
def reparseOut (t : TaskOut) : TaskOut :=
  { t with tags := match t.tags with | .stored s => .listed (parseTags s) | x => x }

/-- C9 amended.  the plan_update envelope of a successful approve
carries exactly the post-update child rows of the plan in sort order,
with the tags column in raw stored form; the plain read of the same
parent id on the post-approve store returns the same rows with tags
parsed, so envelope and read agree on every field once the envelope
tags text is parsed. -/
theorem plan_update_read_roundtrip_tags_parsed
    (s : DbState) (id : String) (aby : Option String) (now aid : String) (p : Row)
    (hf : findTask s.tasks id = some p) (hp : p.approval_status = some "pending") :
    ∃ b, (approvePlan s id aby now aid).ws = [b] ∧
      b.payload.parent_task_id = id ∧
      (∀ t ∈ b.payload.subtasks, ∃ r : Row, t = r.toWire) ∧
      b.payload.subtasks.map reparseOut =
        readPlanChildren (approvePlan s id aby now aid).state id := by
  rw [approvePlan_pending_eq aby now aid hf hp]
  refine ⟨_, rfl, rfl, ?_, ?_⟩
  · intro t ht
    rcases List.mem_map.mp ht with ⟨r, hr, rfl⟩
    exact ⟨r, rfl⟩
  · unfold readPlanChildren resolvedSubs
    dsimp only
    rw [List.map_map]
    rfl

/-- witness for the amended C9 on the concrete approved plan. -/
theorem plan_update_read_roundtrip_tags_parsed_witness :
    ∃ b, cexApprove.ws = [b] ∧
      b.payload.parent_task_id = "p1" ∧
      (∀ t ∈ b.payload.subtasks, ∃ r : Row, t = r.toWire) ∧
      b.payload.subtasks.map reparseOut = readPlanChildren cexApprove.state "p1" :=
  plan_update_read_roundtrip_tags_parsed cexCreate.state "p1" none "2026-01-02" "a2"
    cexParentRow (by decide) (by decide)

/-- the claim of C1 as a predicate on one durable state: it is not the
case that the parent is already approved while some child of it is
still pending. -/
def noApprovedPendingSplit (st : DbState) (id : String) : Prop :=
  ¬ ((∃ q ∈ st.tasks, q.id = id ∧ q.approval_status = some "approved") ∧
     (∃ c ∈ st.tasks, c.parent_task_id = some id ∧ c.approval_status = some "pending"))

instance (st : DbState) (id : String) : Decidable (noApprovedPendingSplit st id) := by
  unfold noApprovedPendingSplit
  infer_instance

/-- counterexample to C1.  approve is not a single transaction: among
the durable commit points of the concrete approve call there is a state
with the parent approved and a child still pending. -/
theorem approve_not_single_transaction_cex :
    ¬ ∀ st ∈ approveCommitPoints cexCreate.state "p1" none "2026-01-02" "a2",
        noApprovedPendingSplit st "p1" := by decide

lemma approveCommitPoints_pending {s : DbState} {id : String} {p : Row}
    (aby : Option String) (now aid : String)
    (hf : findTask s.tasks id = some p) (hp : p.approval_status = some "pending") :
    approveCommitPoints s id aby now aid =
      [s,
       { tasks := s.tasks.map (resolveUpdById id "approved" "inbox" (jsOr aby "human") now),
         activities := s.activities },
       { tasks := resolvedTasks s.tasks id "approved" "inbox" (jsOr aby "human") now,
         activities := s.activities },
       { tasks := resolvedTasks s.tasks id "approved" "inbox" (jsOr aby "human") now,
         activities := s.activities ++
           [{ id := aid, task_id := id, activity_type := "status_changed",
              message := "Plan approved by " ++ jsOr aby "human",
              created_at := now }] }] := by
  unfold approveCommitPoints resolvedTasks
  rw [hf]
  dsimp only
  rw [if_neg (by simp [hp])]

/-- C1 amended.  the parent update and the children update of approve
are two separately committed statements, and the commit point between
them leaves the parent approved while every not-yet-updated pending
child is still pending. -/
theorem approve_commit_gap_parent_approved_children_pending
    (s : DbState) (id : String) (aby : Option String) (now aid : String) (p c : Row)
    (hf : findTask s.tasks id = some p) (hp : p.approval_status = some "pending")
    (hc : c ∈ s.tasks) (hcp : c.parent_task_id = some id) (hcid : c.id ≠ id)
    (hcpend : c.approval_status = some "pending") :
    ∃ st ∈ approveCommitPoints s id aby now aid,
      (∃ q ∈ st.tasks, q.id = id ∧ q.approval_status = some "approved") ∧
      ∃ d ∈ st.tasks, d.parent_task_id = some id ∧ d.approval_status = some "pending" := by
  rw [approveCommitPoints_pending aby now aid hf hp]
  refine ⟨{ tasks := s.tasks.map (resolveUpdById id "approved" "inbox" (jsOr aby "human") now),
            activities := s.activities }, by simp, ?_, ?_⟩
  · refine ⟨resolveUpdById id "approved" "inbox" (jsOr aby "human") now p,
      List.mem_map_of_mem _ (findTask_mem hf), ?_, ?_⟩
    · rw [resolveUpdById_id]
      exact findTask_id hf
    · rw [resolveUpdById_hit id "approved" "inbox" (jsOr aby "human") now (findTask_id hf)]
  · refine ⟨resolveUpdById id "approved" "inbox" (jsOr aby "human") now c,
      List.mem_map_of_mem _ hc, ?_, ?_⟩
    · rw [resolveUpdById_miss id "approved" "inbox" (jsOr aby "human") now hcid]
      exact hcp
    · rw [resolveUpdById_miss id "approved" "inbox" (jsOr aby "human") now hcid]
      exact hcpend

/-- the first child row of the concrete plan as stored. -/
def cexChildRow1 : Row :=
  mkChildRow { title := "Write tests" } "c1" "p1" "w1" (some "dev") "2026-01-01" 0

/-- witness for the amended C1 on the concrete plan. -/
theorem approve_commit_gap_witness :
    ∃ st ∈ approveCommitPoints cexCreate.state "p1" none "2026-01-02" "a2",
      (∃ q ∈ st.tasks, q.id = "p1" ∧ q.approval_status = some "approved") ∧
      ∃ d ∈ st.tasks, d.parent_task_id = some "p1" ∧ d.approval_status = some "pending" :=
  approve_commit_gap_parent_approved_children_pending cexCreate.state "p1" none
    "2026-01-02" "a2" cexParentRow cexChildRow1 (by decide) (by decide) (by decide)
    (by decide) (by decide) (by decide)

/-- the rows the two UPDATE statements of approve address: the row with
the plan id and the rows whose parent reference is the plan id. -/
def planTouched (id : String) (r : Row) : Bool :=
  r.id == id || r.parent_task_id == some id

lemma planTouched_resolved (id a st ap n : String) (r : Row) :
    planTouched id (resolveUpdByParent id a st ap n (resolveUpdById id a st ap n r)) =
      planTouched id r := by
  unfold planTouched
  rw [resolveUpdByParent_id, resolveUpdById_id, resolveUpdByParent_parent,
      resolveUpdById_parent]

lemma countP_orb {α : Type} (l : List α) (p q : α → Bool)
    (h : ∀ x ∈ l, ¬(p x = true ∧ q x = true)) :
    l.countP (fun x => p x || q x) = l.countP p + l.countP q := by
  induction l with
  | nil => simp
  | cons a t ih =>
    have ht : ∀ x ∈ t, ¬(p x = true ∧ q x = true) :=
      fun x hx => h x (List.mem_cons_of_mem _ hx)
    by_cases hpa : p a = true
    · have hqa : ¬ q a = true := fun hq => h a (List.mem_cons_self _ _) ⟨hpa, hq⟩
      simp [List.countP_cons, hpa, hqa, ih ht]
      omega
    · by_cases hqa : q a = true
      · simp [List.countP_cons, hpa, hqa, ih ht]
        omega
      · simp [List.countP_cons, hpa, hqa, ih ht]

/-- C5.  a successful approve of a plan with k children ends with all
k+1 addressed rows (the parent and its children) carrying approval
status approved and coarse status inbox, and leaves every other row of
the store unchanged. -/
theorem approve_cascade_exactly_children_plus_parent
    (s : DbState) (id : String) (aby : Option String) (now aid : String) (p : Row)
    (hf : findTask s.tasks id = some p) (hp : p.approval_status = some "pending")
    (hone : s.tasks.countP (fun r => r.id == id) = 1)
    (hnoself : ∀ r ∈ s.tasks, r.id = id → r.parent_task_id ≠ some id) :
    (approvePlan s id aby now aid).state.tasks.countP (planTouched id) =
      (childRowsOf s.tasks id).length + 1 ∧
    (∀ r ∈ (approvePlan s id aby now aid).state.tasks, planTouched id r = true →
        r.approval_status = some "approved" ∧ r.status = "inbox") ∧
    List.Forall₂ (fun old new => planTouched id old = false → new = old)
      s.tasks (approvePlan s id aby now aid).state.tasks := by
  have hstate : (approvePlan s id aby now aid).state.tasks =
      resolvedTasks s.tasks id "approved" "inbox" (jsOr aby "human") now := by
    rw [approvePlan_pending_eq aby now aid hf hp]
  rw [hstate]
  refine ⟨?_, ?_, ?_⟩
  · unfold resolvedTasks
    rw [List.map_map, List.countP_map]
    have hco : (planTouched id ∘
        (resolveUpdByParent id "approved" "inbox" (jsOr aby "human") now ∘
         resolveUpdById id "approved" "inbox" (jsOr aby "human") now)) = planTouched id := by
      funext r
      exact planTouched_resolved id "approved" "inbox" (jsOr aby "human") now r
    rw [hco]
    have hpt : planTouched id =
        fun r : Row => (r.id == id) || (r.parent_task_id == some id) := rfl
    rw [hpt]
    rw [countP_orb s.tasks _ _ (by
      intro x hx hand
      exact hnoself x hx (by simpa using hand.1) (by simpa using hand.2))]
    rw [hone]
    unfold childRowsOf
    rw [← List.countP_eq_length_filter]
    omega
  · intro r hr htouch
    unfold resolvedTasks at hr
    rcases List.mem_map.mp hr with ⟨r1, hr1, rfl⟩
    rcases List.mem_map.mp hr1 with ⟨r0, hr0, rfl⟩
    rw [planTouched_resolved] at htouch
    have hcase : r0.id = id ∨ r0.parent_task_id = some id := by
      rcases Bool.or_eq_true_iff.mp htouch with h | h
      · exact Or.inl (by simpa using h)
      · exact Or.inr (by simpa using h)
    have h := resolved_row_hit id "approved" "inbox" (jsOr aby "human") now hcase
    exact ⟨h.1, h.2.1⟩
  · unfold resolvedTasks
    rw [List.map_map]
    rw [List.forall₂_map_right_iff]
    rw [List.forall₂_same]
    intro x hx hfalse
    have hfp : ¬ (x.id == id) = true ∧ ¬ (x.parent_task_id == some id) = true := by
      unfold planTouched at hfalse
      constructor <;> intro hb
      · rw [hb] at hfalse
        simp at hfalse
      · rw [hb] at hfalse
        simp at hfalse
    exact resolved_row_miss id "approved" "inbox" (jsOr aby "human") now
      (by simpa using hfp.1) (by simpa using hfp.2)

/-- witness for C5 on the concrete plan with two children. -/
theorem approve_cascade_exactly_children_plus_parent_witness :
    cexApprove.state.tasks.countP (planTouched "p1") =
      (childRowsOf cexCreate.state.tasks "p1").length + 1 ∧
    (∀ r ∈ cexApprove.state.tasks, planTouched "p1" r = true →
        r.approval_status = some "approved" ∧ r.status = "inbox") ∧
    List.Forall₂ (fun old new => planTouched "p1" old = false → new = old)
      cexCreate.state.tasks cexApprove.state.tasks :=
  approve_cascade_exactly_children_plus_parent cexCreate.state "p1" none
    "2026-01-02" "a2" cexParentRow (by decide) (by decide) (by decide) (by decide)

lemma mkChildRows_length (ds : List TaskDraft) (ids : List String)
    (p w : String) (a : Option String) (n : String) (i : Nat) :
    (mkChildRows ds ids p w a n i).length = min ds.length ids.length := by
  induction ds generalizing ids i with
  | nil => cases ids <;> simp [mkChildRows]
  | cons d t ih =>
    cases ids with
    | nil => simp [mkChildRows]
    | cons b u =>
      simp [mkChildRows, ih u (i + 1)]
      omega

lemma mkChildRows_getElem {ds : List TaskDraft} {ids : List String} {j : Nat}
    {d : TaskDraft} {cid : String} (p w : String) (a : Option String) (n : String)
    (i : Nat) (hd : ds[j]? = some d) (hi : ids[j]? = some cid) :
    (mkChildRows ds ids p w a n i)[j]? = some (mkChildRow d cid p w a n (i + j)) := by
  induction ds generalizing ids j i with
  | nil => simp at hd
  | cons x t ih =>
    cases ids with
    | nil => simp at hi
    | cons b u =>
      cases j with
      | zero =>
        simp at hd hi
        subst hd
        subst hi
        simp [mkChildRows]
      | succ j =>
        simp at hd hi
        have harith : i + (j + 1) = (i + 1) + j := by omega
        rw [harith]
        simpa [mkChildRows] using ih (i + 1) hd hi

/-- C6.  a successful createPlan appends exactly the parent and one row
per submitted child; parent and children all carry approval status
pending and coarse status pending_approval; the child at submitted
index j carries the fresh parent id as parent reference, sort order j,
the fresh id drawn for position j, and a tag list that is the agentic
marker followed by the caller supplied tags; existing rows are
untouched. -/
theorem createPlan_success_shape
    (s : DbState) (req : CreateTaskPlanRequest) (now parentId activityId : String)
    (childIds : List String)
    (htitle : req.parent_task.title ≠ "") (hsub : req.subtasks ≠ [])
    (hlen : childIds.length = req.subtasks.length) :
    (createPlan s req now parentId childIds activityId).state.tasks.length =
      s.tasks.length + req.subtasks.length + 1 ∧
    (∀ j, j < s.tasks.length →
      (createPlan s req now parentId childIds activityId).state.tasks[j]? = s.tasks[j]?) ∧
    (∃ pr, (createPlan s req now parentId childIds activityId).state.tasks[s.tasks.length]? =
        some pr ∧
      pr.id = parentId ∧ pr.parent_task_id = none ∧
      pr.approval_status = some "pending" ∧ pr.status = "pending_approval" ∧
      pr.tags = encodeTags ("agentic" :: req.parent_task.tags.getD [])) ∧
    (∀ j, j < req.subtasks.length →
      ∃ c d, (createPlan s req now parentId childIds activityId).state.tasks[s.tasks.length + (j + 1)]? =
          some c ∧
        req.subtasks[j]? = some d ∧ childIds[j]? = some c.id ∧
        c.parent_task_id = some parentId ∧ c.sort_order = j ∧
        c.approval_status = some "pending" ∧ c.status = "pending_approval" ∧
        c.tags = encodeTags ("agentic" :: d.tags.getD [])) := by
  have heq : (createPlan s req now parentId childIds activityId).state.tasks =
      s.tasks ++ mkParentRow req.parent_task parentId
          (jsOr req.parent_task.workspace_id "default") req.agent_id req.session_key now ::
        mkChildRows req.subtasks childIds parentId
          (jsOr req.parent_task.workspace_id "default") req.agent_id now 0 := by
    unfold createPlan
    rw [if_neg htitle, if_neg hsub]
  rw [heq]
  refine ⟨?_, ?_, ?_, ?_⟩
  · simp [mkChildRows_length, hlen]
    omega
  · intro j hj
    rw [List.getElem?_append, if_pos hj]
  · refine ⟨mkParentRow req.parent_task parentId
        (jsOr req.parent_task.workspace_id "default") req.agent_id req.session_key now,
      ?_, rfl, rfl, rfl, rfl, rfl⟩
    rw [List.getElem?_append_right (le_refl s.tasks.length)]
    simp
  · intro j hj
    have hd : ∃ d, req.subtasks[j]? = some d := by
      rw [List.getElem?_eq_getElem hj]
      exact ⟨_, rfl⟩
    have hjc : j < childIds.length := by omega
    have hc : ∃ cid, childIds[j]? = some cid := by
      rw [List.getElem?_eq_getElem hjc]
      exact ⟨_, rfl⟩
    rcases hd with ⟨d, hd⟩
    rcases hc with ⟨cid, hc⟩
    refine ⟨mkChildRow d cid parentId (jsOr req.parent_task.workspace_id "default")
        req.agent_id now j, d, ?_, hd, hc, rfl, rfl, rfl, rfl, rfl⟩
    rw [List.getElem?_append_right (by omega : s.tasks.length ≤ s.tasks.length + (j + 1))]
    have hsub1 : s.tasks.length + (j + 1) - s.tasks.length = j + 1 := by omega
    rw [hsub1]
    rw [List.getElem?_cons_succ]
    have := mkChildRows_getElem parentId (jsOr req.parent_task.workspace_id "default")
      req.agent_id now 0 hd hc
    rw [Nat.zero_add] at this
    exact this

/-- witness for C6 on the concrete two-child plan. -/
theorem createPlan_success_shape_witness :
    cexCreate.state.tasks.length = 0 + 2 + 1 ∧
    (∀ j, j < 0 → cexCreate.state.tasks[j]? = ([] : List Row)[j]?) ∧
    (∃ pr, cexCreate.state.tasks[0]? = some pr ∧
      pr.id = "p1" ∧ pr.parent_task_id = none ∧
      pr.approval_status = some "pending" ∧ pr.status = "pending_approval" ∧
      pr.tags = encodeTags ("agentic" :: cexReq.parent_task.tags.getD [])) ∧
    (∀ j, j < 2 →
      ∃ c d, cexCreate.state.tasks[0 + (j + 1)]? = some c ∧
        cexReq.subtasks[j]? = some d ∧ ["c1", "c2"][j]? = some c.id ∧
        c.parent_task_id = some "p1" ∧ c.sort_order = j ∧
        c.approval_status = some "pending" ∧ c.status = "pending_approval" ∧
        c.tags = encodeTags ("agentic" :: d.tags.getD [])) :=
  createPlan_success_shape { tasks := [], activities := [] } cexReq "2026-01-01" "p1"
    "a1" ["c1", "c2"] (by decide) (by decide) (by decide)

lemma setAdd_mem (x y : String) (l : List String) :
    x ∈ setAdd y l ↔ x = y ∨ x ∈ l := by
  unfold setAdd
  split_ifs with h
  · constructor
    · exact Or.inr
    · rintro (rfl | hx)
      · exact h
      · exact hx
  · rw [List.mem_append, List.mem_singleton]
    tauto

lemma setAdd_nodup (y : String) {l : List String} (h : l.Nodup) :
    (setAdd y l).Nodup := by
  unfold setAdd
  split_ifs with hm
  · exact h
  · refine h.append (List.nodup_singleton y) ?_
    intro a ha hb
    rw [List.mem_singleton] at hb
    subst hb
    exact hm ha

lemma foldl_setAdd_mem (ws : List String) (l : List String) (x : String) :
    x ∈ ws.foldl (fun acc w => setAdd w acc) l ↔ x ∈ l ∨ x ∈ ws := by
  induction ws generalizing l with
  | nil => simp
  | cons a t ih =>
    simp only [List.foldl_cons]
    rw [ih, setAdd_mem, List.mem_cons]
    tauto

lemma foldl_setAdd_nodup (ws : List String) {l : List String} (h : l.Nodup) :
    (ws.foldl (fun acc w => setAdd w acc) l).Nodup := by
  induction ws generalizing l with
  | nil => exact h
  | cons a t ih =>
    simp only [List.foldl_cons]
    exact ih (setAdd_nodup a h)

lemma setDel_nodup (a : String) {l : List String} (h : l.Nodup) :
    (setDel a l).Nodup := h.erase a

lemma setDel_mem {l : List String} (h : l.Nodup) (x a : String) :
    x ∈ setDel a l ↔ x ≠ a ∧ x ∈ l := h.mem_erase_iff

lemma foldl_setDel_mem (ws : List String) {l : List String} (x : String)
    (h : l.Nodup) :
    x ∈ ws.foldl (fun acc w => setDel w acc) l ↔ x ∈ l ∧ x ∉ ws := by
  induction ws generalizing l with
  | nil => simp
  | cons a t ih =>
    simp only [List.foldl_cons]
    rw [ih (setDel_nodup a h)]
    rw [setDel_mem h x a, List.mem_cons]
    tauto

lemma foldl_setDel_nodup (ws : List String) {l : List String} (h : l.Nodup) :
    (ws.foldl (fun acc w => setDel w acc) l).Nodup := by
  induction ws generalizing l with
  | nil => exact h
  | cons a t ih =>
    simp only [List.foldl_cons]
    exact ih (setDel_nodup a h)

/-- one message keeps the implementation filter list tracking the
specification set, and keeps it duplicate free. -/
lemma handleMsg_ws_track (c : WSClient) (S : Set String) (m : ClientMsg)
    (hm : ∀ x, x ∈ c.subscribedWorkspaces ↔ x ∈ S)
    (hn : c.subscribedWorkspaces.Nodup) :
    (∀ x, x ∈ (handleMsg c m).subscribedWorkspaces ↔ x ∈ specStep S m) ∧
      (handleMsg c m).subscribedWorkspaces.Nodup := by
  cases m with
  | subscribe ws ts =>
    refine ⟨?_, foldl_setAdd_nodup ws hn⟩
    intro x
    show x ∈ ws.foldl (fun acc w => setAdd w acc) c.subscribedWorkspaces ↔ _
    rw [foldl_setAdd_mem, hm x]
    simp [specStep]
  | unsubscribe ws ts =>
    refine ⟨?_, foldl_setDel_nodup ws hn⟩
    intro x
    show x ∈ ws.foldl (fun acc w => setDel w acc) c.subscribedWorkspaces ↔ _
    rw [foldl_setDel_mem ws x hn, hm x]
    simp [specStep, Set.mem_diff]

/-- over any message sequence, the filter list of a fresh connection
tracks the specification set and stays duplicate free. -/
lemma applyMsgs_ws_track (cid : String) (msgs : List ClientMsg) :
    (∀ x, x ∈ (applyMsgs cid msgs).subscribedWorkspaces ↔ x ∈ specWsSet msgs) ∧
      (applyMsgs cid msgs).subscribedWorkspaces.Nodup := by
  suffices h : ∀ (ms : List ClientMsg) (c : WSClient) (S : Set String),
      (∀ x, x ∈ c.subscribedWorkspaces ↔ x ∈ S) → c.subscribedWorkspaces.Nodup →
      (∀ x, x ∈ (ms.foldl handleMsg c).subscribedWorkspaces ↔ x ∈ ms.foldl specStep S) ∧
        (ms.foldl handleMsg c).subscribedWorkspaces.Nodup by
    exact h msgs (initialClient cid) {"default"}
      (by intro x; simp [initialClient]) (by simp [initialClient])
  intro ms
  induction ms with
  | nil => intro c S hm hn; exact ⟨hm, hn⟩
  | cons m t ih =>
    intro c S hm hn
    simp only [List.foldl_cons]
    have h1 := handleMsg_ws_track c S m hm hn
    exact ih _ _ h1.1 h1.2

/-- C8.  after any sequence of subscribe and unsubscribe messages, a
workspace-scoped broadcast reaches the connection iff the target
workspace id or the wildcard is in the current workspace filter, and
that filter is exactly the set obtained by folding unions and
differences of the requested ids over the initial default
subscription; the task filter plays no part. -/
theorem broadcast_reaches_iff_workspace_subscribed
    (clients : List WSClient) (cid : String) (msgs : List ClientMsg) (w : String)
    (hmem : applyMsgs cid msgs ∈ clients) :
    (applyMsgs cid msgs ∈ wsRecipients clients w ↔
      w ∈ specWsSet msgs ∨ "*" ∈ specWsSet msgs) ∧
    (∀ x, x ∈ (applyMsgs cid msgs).subscribedWorkspaces ↔ x ∈ specWsSet msgs) := by
  have ht := applyMsgs_ws_track cid msgs
  refine ⟨?_, ht.1⟩
  rw [wsRecipients, List.mem_filter]
  unfold wsMatches
  constructor
  · rintro ⟨-, hb⟩
    rcases Bool.or_eq_true_iff.mp hb with h | h
    · exact Or.inl ((ht.1 w).mp (List.elem_iff.mp h))
    · exact Or.inr ((ht.1 "*").mp (List.elem_iff.mp h))
  · intro h
    refine ⟨hmem, ?_⟩
    rcases h with h | h
    · exact Bool.or_eq_true_iff.mpr (Or.inl (List.elem_iff.mpr ((ht.1 w).mpr h)))
    · exact Bool.or_eq_true_iff.mpr (Or.inr (List.elem_iff.mpr ((ht.1 "*").mpr h)))

/-- witness for C8: a connection that subscribed only to a task id is
still reached by a broadcast scoped to the default workspace through
its automatic default subscription. -/
theorem broadcast_reaches_iff_workspace_subscribed_witness :
    applyMsgs "client_1" [ClientMsg.subscribe [] ["t1"]] ∈
      wsRecipients [applyMsgs "client_1" [ClientMsg.subscribe [] ["t1"]]] "default" :=
  ((broadcast_reaches_iff_workspace_subscribed
      [applyMsgs "client_1" [ClientMsg.subscribe [] ["t1"]]] "client_1"
      [ClientMsg.subscribe [] ["t1"]] "default"
      (List.mem_singleton.mpr rfl)).1).mpr
    (Or.inl (by simp [specWsSet, specStep]))

instance (s : DbState) (ids : List String) : Decidable (freshIds s ids) := by
  unfold freshIds
  infer_instance

instance (s : DbState) (id : String) : Decidable (topLevelTarget s id) := by
  unfold topLevelTarget
  infer_instance

instance (s : DbState) : Decidable (childParentConsistent s) := by
  unfold childParentConsistent
  infer_instance

/-- counterexample to C2.  calling approve with the id of a child task
is accepted (the child is itself pending), so a state is reachable in
which the child is approved and in the inbox while its parent and
sibling are still pending. -/
theorem plan_child_consistency_cex :
    Reach cexApproveChild.state ∧ ¬ childParentConsistent cexApproveChild.state :=
  ⟨Reach.step
      (Reach.step Reach.init
        (UStep.create cexReq "2026-01-01" "p1" "a1" ["c1", "c2"]
          (by decide) (by decide) (by decide)))
      (UStep.approve "c1" none "2026-01-02" "a2"),
    by decide⟩

lemma resolved_comp_id (id a st ap n : String) (r : Row) :
    (resolveUpdByParent id a st ap n (resolveUpdById id a st ap n r)).id = r.id := by
  rw [resolveUpdByParent_id, resolveUpdById_id]

lemma resolved_comp_parent (id a st ap n : String) (r : Row) :
    (resolveUpdByParent id a st ap n
      (resolveUpdById id a st ap n r)).parent_task_id = r.parent_task_id := by
  rw [resolveUpdByParent_parent, resolveUpdById_parent]

/-- the cascading resolve of approve or reject, aimed at a top-level
task id, preserves the structural invariant. -/
lemma resolved_good (tasks : List Row) (acts acts2 : List Activity)
    (id appr stat ap now : String)
    (hg : goodState { tasks := tasks, activities := acts })
    (htop : ∀ r ∈ tasks, r.id = id → r.parent_task_id = none) :
    goodState { tasks := resolvedTasks tasks id appr stat ap now,
                activities := acts2 } := by
  obtain ⟨hcc, htl, hrc⟩ := hg
  have hmem : ∀ r ∈ resolvedTasks tasks id appr stat ap now,
      ∃ r0 ∈ tasks, r = resolveUpdByParent id appr stat ap now
        (resolveUpdById id appr stat ap now r0) := by
    intro r hr
    unfold resolvedTasks at hr
    rcases List.mem_map.mp hr with ⟨r1, hr1, rfl⟩
    rcases List.mem_map.mp hr1 with ⟨r0, hr0, rfl⟩
    exact ⟨r0, hr0, rfl⟩
  refine ⟨?_, ?_, ?_⟩
  · intro c hc p hp hcp
    rcases hmem c hc with ⟨c0, hc0, rfl⟩
    rcases hmem p hp with ⟨p0, hp0, rfl⟩
    rw [resolved_comp_parent, resolved_comp_id] at hcp
    by_cases hpid : p0.id = id
    · have hchit := resolved_row_hit id appr stat ap now
        (Or.inr (by rw [hcp, hpid]))
      have hphit := resolved_row_hit id appr stat ap now (Or.inl hpid)
      rw [hchit.1, hphit.1, hchit.2.1, hphit.2.1]
      exact ⟨rfl, rfl⟩
    · have hc0id : c0.id ≠ id := by
        intro he
        have := htop c0 hc0 he
        rw [this] at hcp
        exact Option.noConfusion hcp
      have hc0par : c0.parent_task_id ≠ some id := by
        intro he
        rw [hcp] at he
        exact hpid (Option.some.inj he)
      have hp0par : p0.parent_task_id ≠ some id := by
        intro he
        have := htl c0 hc0 p0 hp0 hcp
        rw [this] at he
        exact Option.noConfusion he
      have hp0id : p0.id ≠ id := hpid
      rw [resolved_row_miss id appr stat ap now hc0id hc0par,
          resolved_row_miss id appr stat ap now hp0id hp0par]
      exact hcc c0 hc0 p0 hp0 hcp
  · intro c hc p hp hcp
    rcases hmem c hc with ⟨c0, hc0, rfl⟩
    rcases hmem p hp with ⟨p0, hp0, rfl⟩
    rw [resolved_comp_parent, resolved_comp_id] at hcp
    rw [resolved_comp_parent]
    exact htl c0 hc0 p0 hp0 hcp
  · intro c hc pid hpid
    rcases hmem c hc with ⟨c0, hc0, rfl⟩
    rw [resolved_comp_parent] at hpid
    rcases hrc c0 hc0 pid hpid with ⟨q, hq, hqid⟩
    refine ⟨resolveUpdByParent id appr stat ap now
        (resolveUpdById id appr stat ap now q), ?_, ?_⟩
    · unfold resolvedTasks
      exact List.mem_map_of_mem _ (List.mem_map_of_mem _ hq)
    · rw [resolved_comp_id]
      exact hqid

lemma mkChildRows_mem {ds : List TaskDraft} {ids : List String} {pid w : String}
    {a : Option String} {n : String} {i : Nat} {c : Row}
    (h : c ∈ mkChildRows ds ids pid w a n i) :
    c.parent_task_id = some pid ∧ c.id ∈ ids ∧
      c.approval_status = some "pending" ∧ c.status = "pending_approval" := by
  induction ds generalizing ids i with
  | nil => cases ids <;> simp [mkChildRows] at h
  | cons d t ih =>
    cases ids with
    | nil => simp [mkChildRows] at h
    | cons b u =>
      rcases List.mem_cons.mp h with rfl | h2
      · exact ⟨rfl, List.mem_cons_self b u, rfl, rfl⟩
      · have := ih h2
        exact ⟨this.1, List.mem_cons_of_mem b this.2.1, this.2.2⟩

/-- createPlan with fresh distinct ids preserves the structural
invariant. -/
lemma create_good (s : DbState) (req : CreateTaskPlanRequest)
    (now parentId activityId : String) (childIds : List String)
    (hg : goodState s)
    (hfresh : freshIds s (parentId :: childIds))
    (hnodup : (parentId :: childIds).Nodup) :
    goodState (createPlan s req now parentId childIds activityId).state := by
  by_cases ht : req.parent_task.title = ""
  · unfold createPlan
    rw [if_pos ht]
    exact hg
  by_cases hs : req.subtasks = []
  · unfold createPlan
    rw [if_neg ht, if_pos hs]
    exact hg
  have heq : (createPlan s req now parentId childIds activityId).state.tasks =
      s.tasks ++ mkParentRow req.parent_task parentId
          (jsOr req.parent_task.workspace_id "default") req.agent_id req.session_key now ::
        mkChildRows req.subtasks childIds parentId
          (jsOr req.parent_task.workspace_id "default") req.agent_id now 0 := by
    unfold createPlan
    rw [if_neg ht, if_neg hs]
  obtain ⟨hcc, htl, hrc⟩ := hg
  set pr := mkParentRow req.parent_task parentId
    (jsOr req.parent_task.workspace_id "default") req.agent_id req.session_key now with hpr
  set kids := mkChildRows req.subtasks childIds parentId
    (jsOr req.parent_task.workspace_id "default") req.agent_id now 0 with hkids
  have hprid : pr.id = parentId := rfl
  have hprpar : pr.parent_task_id = none := rfl
  have hprapp : pr.approval_status = some "pending" := rfl
  have hprst : pr.status = "pending_approval" := rfl
  have hpnotc : parentId ∉ childIds := (List.nodup_cons.mp hnodup).1
  have hfreshp : ∀ r ∈ s.tasks, r.id ≠ parentId :=
    fun r hr => hfresh parentId (List.mem_cons_self _ _) r hr
  have hfreshc : ∀ x ∈ childIds, ∀ r ∈ s.tasks, r.id ≠ x :=
    fun x hx r hr => hfresh x (List.mem_cons_of_mem _ hx) r hr
  have holdpar : ∀ c ∈ s.tasks, ∀ x : String, c.parent_task_id = some x →
      x ≠ parentId ∧ x ∉ childIds := by
    intro c hc x hx
    rcases hrc c hc x hx with ⟨q, hq, hqid⟩
    constructor
    · intro he
      exact hfreshp q hq (hqid.trans he)
    · intro he
      exact hfreshc x he q hq hqid
  have hcases : ∀ r ∈ (createPlan s req now parentId childIds activityId).state.tasks,
      r ∈ s.tasks ∨ r = pr ∨ r ∈ kids := by
    intro r hr
    rw [heq] at hr
    rcases List.mem_append.mp hr with h | h
    · exact Or.inl h
    · rcases List.mem_cons.mp h with h | h
      · exact Or.inr (Or.inl h)
      · exact Or.inr (Or.inr h)
  have hmemback : ∀ r : Row, r ∈ s.tasks ∨ r = pr ∨ r ∈ kids →
      r ∈ (createPlan s req now parentId childIds activityId).state.tasks := by
    intro r h
    rw [heq]
    rcases h with h | h | h
    · exact List.mem_append.mpr (Or.inl h)
    · exact List.mem_append.mpr (Or.inr (by rw [h]; exact List.mem_cons_self _ _))
    · exact List.mem_append.mpr (Or.inr (List.mem_cons_of_mem _ h))
  refine ⟨?_, ?_, ?_⟩
  · intro c hc p hp hcp
    rcases hcases c hc with hcold | rfl | hckid
    · rcases hcases p hp with hpold | rfl | hpkid
      · exact hcc c hcold p hpold hcp
      · rw [hprid] at hcp
        exact absurd rfl (holdpar c hcold parentId hcp).1
      · have hpk := mkChildRows_mem hpkid
        exact absurd hpk.2.1 (holdpar c hcold p.id hcp).2
    · rw [hprpar] at hcp
      exact Option.noConfusion hcp
    · have hck := mkChildRows_mem hckid
      have hpid : p.id = parentId := by
        rw [hck.1] at hcp
        exact (Option.some.inj hcp).symm
      rcases hcases p hp with hpold | rfl | hpkid
      · exact absurd hpid (hfreshp p hpold)
      · rw [hck.2.2.1, hck.2.2.2, hprapp, hprst]
        exact ⟨rfl, rfl⟩
      · have hpk := mkChildRows_mem hpkid
        rw [hpid] at hpk
        exact absurd hpk.2.1 hpnotc
  · intro c hc p hp hcp
    rcases hcases p hp with hpold | rfl | hpkid
    · rcases hcases c hc with hcold | rfl | hckid
      · exact htl c hcold p hpold hcp
      · rw [hprpar] at hcp
        exact Option.noConfusion hcp
      · have hck := mkChildRows_mem hckid
        rw [hck.1] at hcp
        have hpid : p.id = parentId := (Option.some.inj hcp).symm
        exact absurd hpid (hfreshp p hpold)
    · exact hprpar
    · have hpk := mkChildRows_mem hpkid
      rcases hcases c hc with hcold | rfl | hckid
      · exact absurd hpk.2.1 (holdpar c hcold p.id hcp).2
      · rw [hprpar] at hcp
        exact Option.noConfusion hcp
      · have hck := mkChildRows_mem hckid
        rw [hck.1] at hcp
        have : p.id = parentId := (Option.some.inj hcp).symm
        rw [this] at hpk
        exact absurd hpk.2.1 hpnotc
  · intro c hc x hx
    rcases hcases c hc with hcold | rfl | hckid
    · rcases hrc c hcold x hx with ⟨q, hq, hqid⟩
      exact ⟨q, hmemback q (Or.inl hq), hqid⟩
    · rw [hprpar] at hx
      exact Option.noConfusion hx
    · have hck := mkChildRows_mem hckid
      rw [hck.1] at hx
      refine ⟨pr, hmemback pr (Or.inr (Or.inl rfl)), ?_⟩
      rw [hprid]
      exact Option.some.inj hx

/-- any guarded plan-route call preserves the structural invariant. -/
lemma gstep_good {s t : DbState} (hst : GStep s t) (hg : goodState s) :
    goodState t := by
  cases hst with
  | create req now parentId activityId childIds hlen hfresh hnodup =>
    exact create_good s req now parentId activityId childIds hg hfresh hnodup
  | approve id aby now aid htop =>
    rcases hfind : findTask s.tasks id with _ | p
    · rw [approvePlan_notFound aby now aid hfind]
      exact hg
    · by_cases hp : p.approval_status = some "pending"
      · rw [approvePlan_pending_eq aby now aid hfind hp]
        exact resolved_good s.tasks s.activities _ id "approved" "inbox"
          (jsOr aby "human") now hg htop
      · rw [approvePlan_invalid aby now aid hfind hp]
        exact hg
  | reject id rby reason now aid htop =>
    rcases hfind : findTask s.tasks id with _ | p
    · rw [rejectPlan_notFound rby reason now aid hfind]
      exact hg
    · by_cases hp : p.approval_status = some "pending"
      · rw [rejectPlan_pending_eq rby reason now aid hfind hp]
        exact resolved_good s.tasks s.activities _ id "rejected" "blocked"
          (jsOr rby "human") now hg htop
      · rw [rejectPlan_invalid rby reason now aid hfind hp]
        exact hg

/-- every state reachable under guarded plan-route calls satisfies the
structural invariant. -/
lemma greach_good {s : DbState} (h : GReach s) : goodState s := by
  induction h with
  | init =>
    refine ⟨?_, ?_, ?_⟩ <;> intro c hc
    · exact absurd hc (List.not_mem_nil c)
    · exact absurd hc (List.not_mem_nil c)
    · exact absurd hc (List.not_mem_nil c)
  | step _ hst ih => exact gstep_good hst ih

/-- C2 amended.  the parent and children of a plan change together in
every state reachable by createPlan, approve and reject, provided
approve and reject are only issued against top-level (parentless) task
ids: every child row always carries the same approval status and the
same coarse status as its parent row. -/
theorem plan_child_consistency_of_guarded_reach (s : DbState) (h : GReach s) :
    childParentConsistent s :=
  (greach_good h).1

/-- witness for the amended C2: the concrete approved plan state is
guarded-reachable and consistent. -/
theorem plan_child_consistency_of_guarded_reach_witness :
    childParentConsistent cexApprove.state :=
  plan_child_consistency_of_guarded_reach cexApprove.state
    (GReach.step
      (GReach.step GReach.init
        (GStep.create cexReq "2026-01-01" "p1" "a1" ["c1", "c2"]
          (by decide) (by decide) (by decide)))
      (GStep.approve "p1" none "2026-01-02" "a2" (by decide)))

end MissionControl
